import Mathlib

/-!
# Verification of the gradient-descent linear-regression trainer

Embedding of `learn_w_gradient_descent` (simple linear regression via
gradient descent, numpy variant) and of the synthetic-data generator
`gen_simple_linear` it is fed with.  Floating-point numbers are modelled
as rationals; numpy arrays as `List ℚ`; numpy's axis-0 broadcasting of
binary elementwise operations (which raises on incompatible shapes) as an
`Option`-valued operation.  The global numpy random source is threaded as
explicit arguments: the initial coefficient pair drawn by
`np.random.randint(1, 10, size=2)` is a parameter of the trainer model.
-/

namespace NNGD

/-- numpy-style broadcasting of a binary elementwise operation over two
column vectors along axis 0: equal lengths act elementwise, a length-1
operand is broadcast, and any other shape combination raises
(modelled as `none`). -/
def bop (f : ℚ → ℚ → ℚ) (as bs : List ℚ) : Option (List ℚ) :=
  if as.length = bs.length then some (List.zipWith f as bs)
  else if as.length = 1 then some (bs.map (fun b => f as.headI b))
  else if bs.length = 1 then some (as.map (fun a => f a bs.headI))
  else none

/-- Mean of an array, `ndarray.mean()`: sum divided by length.  (numpy yields NaN on an
empty array; in `ℚ` the division by zero yields 0 — the claims proved
below never depend on the value of an empty mean, only on the fact that
taking it raises no error.) -/
def mean (l : List ℚ) : ℚ := l.sum / (l.length : ℚ)

/-- The local frame of `learn_w_gradient_descent`: the two observation
arrays and the two scalar coefficients. -/
@[ext] structure TState where
  xs : List ℚ
  ys : List ℚ
  beta0 : ℚ
  beta1 : ℚ
deriving DecidableEq

/-- The hardcoded `learning_rate = 0.1` of the source. -/
def learning_rate : ℚ := 1 / 10

/-- One iteration of the loop body of `learn_w_gradient_descent`,
statement by statement (the learning rate is abstracted so that the
update rule can also be discussed at other rates; the source fixes it
to `learning_rate`):
`yhats = beta_0 + beta_1 * xs`; `es = (ys - yhats)`; `d_beta_0 = -es`;
`d_beta_1 = -es * xs`; `beta_0 -= learning_rate * d_beta_0.mean()`;
`beta_1 -= learning_rate * d_beta_1.mean()`.
A broadcast failure in numpy raises and aborts the call: modelled as
`none`. -/
def gdStepLR (lr : ℚ) (s : TState) : Option TState :=
  let yhats := s.xs.map (fun x => s.beta0 + s.beta1 * x)
  (bop (fun y yh => y - yh) s.ys yhats).bind fun es =>
    let d_beta_0 := es.map (fun e => -e)
    (bop (fun a b => a * b) (es.map (fun e => -e)) s.xs).bind fun d_beta_1 =>
      let s1 := { s with beta0 := s.beta0 - lr * mean d_beta_0 }
      some { s1 with beta1 := s1.beta1 - lr * mean d_beta_1 }

/-- The loop body at the source's hardcoded learning rate. -/
def gdStep : TState → Option TState := gdStepLR learning_rate

/-- The residuals `ys - (beta_0 + beta_1 * xs)` of a state. -/
def residuals (s : TState) : List ℚ :=
  List.zipWith (fun y x => y - (s.beta0 + s.beta1 * x)) s.ys s.xs

/-- Mean-squared-error gradient with respect to the intercept:
the negative mean residual. -/
def grad0 (s : TState) : ℚ := -(mean (residuals s))

/-- Mean-squared-error gradient with respect to the feature coefficient:
the negative mean of residual times feature value. -/
def grad1 (s : TState) : ℚ :=
  -(mean (List.zipWith (fun e x => e * x) (residuals s) s.xs))

/-- The simultaneous-update step: both coefficients updated by
`coefficient -= lr * gradient` with both gradients evaluated at the same
pre-update state. -/
def simulStepLR (lr : ℚ) (s : TState) : TState :=
  { s with beta0 := s.beta0 - lr * grad0 s, beta1 := s.beta1 - lr * grad1 s }

/-- Simultaneous update at the source's hardcoded learning rate. -/
def simulStep : TState → TState := simulStepLR learning_rate

section ListLemmas

lemma zipWith_map_right' (f : ℚ → ℚ → ℚ) (g : ℚ → ℚ) :
    ∀ as bs : List ℚ,
      List.zipWith f as (bs.map g) = List.zipWith (fun a b => f a (g b)) as bs := by
  intro as
  induction as with
  | nil => intro bs; simp
  | cons a as ih =>
    intro bs
    cases bs with
    | nil => simp
    | cons b bs => simp [ih]

lemma zipWith_map_left_neg_mul :
    ∀ as bs : List ℚ,
      List.zipWith (fun a b => a * b) (as.map (fun e => -e)) bs
        = (List.zipWith (fun a b => a * b) as bs).map (fun z => -z) := by
  intro as
  induction as with
  | nil => intro bs; simp
  | cons a as ih =>
    intro bs
    cases bs with
    | nil => simp
    | cons b bs => simp [ih]

lemma sum_map_neg' : ∀ l : List ℚ, (l.map (fun e => -e)).sum = -l.sum := by
  intro l
  induction l with
  | nil => simp
  | cons a l ih => simp [ih]; ring

lemma mean_map_neg (l : List ℚ) : mean (l.map (fun e => -e)) = -(mean l) := by
  unfold mean
  rw [sum_map_neg', List.length_map, neg_div]

end ListLemmas

lemma bop_eq_length (f : ℚ → ℚ → ℚ) (as bs : List ℚ) (h : as.length = bs.length) :
    bop f as bs = some (List.zipWith f as bs) := by
  unfold bop
  rw [if_pos h]

/-- When `xs` and `ys` have the same length, the statement-by-statement
loop body computes exactly the simultaneous update. -/
lemma gdStepLR_eq_simul (lr : ℚ) (s : TState) (h : s.xs.length = s.ys.length) :
    gdStepLR lr s = some (simulStepLR lr s) := by
  have hy : s.ys.length = (s.xs.map (fun x => s.beta0 + s.beta1 * x)).length := by
    rw [List.length_map, h]
  simp only [gdStepLR, bop_eq_length _ _ _ hy, Option.some_bind]
  have hes : List.zipWith (fun y yh => y - yh) s.ys (s.xs.map (fun x => s.beta0 + s.beta1 * x))
      = residuals s := by
    rw [zipWith_map_right']
    rfl
  have hlen2 : ((residuals s).map (fun e => -e)).length = s.xs.length := by
    rw [List.length_map]
    unfold residuals
    rw [List.length_zipWith, ← h, Nat.min_self]
  simp only [hes]
  simp only [bop_eq_length _ _ _ hlen2, zipWith_map_left_neg_mul, Option.some_bind]
  have hm0 : mean ((residuals s).map (fun e => -e)) = grad0 s := by
    rw [mean_map_neg]; rfl
  have hm1 : mean ((List.zipWith (fun a b => a * b) (residuals s) s.xs).map (fun z => -z))
      = grad1 s := by
    rw [mean_map_neg]; rfl
  simp only [hm0, hm1]
  rfl

/-- The `for _ in range(n)` loop of the trainer: `n` executions of the
loop body, sequenced; an exception in an iteration aborts the remaining
ones. -/
def gdLoop : ℕ → TState → Option TState
  | 0, s => some s
  | n + 1, s => (gdStep s).bind (gdLoop n)

/-- The sequence of coefficient states visited by the simultaneous-update
iteration: the state before each step, then the final state. -/
def gdTrace : ℕ → TState → List TState
  | 0, s => [s]
  | n + 1, s => s :: gdTrace n (simulStep s)

lemma simulStepLR_xs (lr : ℚ) (s : TState) : (simulStepLR lr s).xs = s.xs := rfl

lemma simulStepLR_ys (lr : ℚ) (s : TState) : (simulStepLR lr s).ys = s.ys := rfl

/-- On equal-length data the loop runs all its iterations and computes
the simultaneous update iterated. -/
lemma gdLoop_eq_iterate :
    ∀ (n : ℕ) (s : TState), s.xs.length = s.ys.length →
      gdLoop n s = some (simulStep^[n] s) := by
  intro n
  induction n with
  | zero => intro s _; rfl
  | succ n ih =>
    intro s h
    have hstep : gdStep s = some (simulStep s) := gdStepLR_eq_simul learning_rate s h
    have h' : (simulStep s).xs.length = (simulStep s).ys.length := h
    rw [gdLoop, hstep, Option.some_bind, ih (simulStep s) h',
      Function.iterate_succ_apply]

lemma gdTrace_length : ∀ (n : ℕ) (s : TState), (gdTrace n s).length = n + 1 := by
  intro n
  induction n with
  | zero => intro s; rfl
  | succ n ih => intro s; simp [gdTrace, ih]

lemma gdTrace_ne_nil (n : ℕ) (s : TState) : gdTrace n s ≠ [] := by
  intro hcon
  have := gdTrace_length n s
  rw [hcon] at this
  simp at this

lemma gdTrace_getLast? :
    ∀ (n : ℕ) (s : TState), (gdTrace n s).getLast? = some (simulStep^[n] s) := by
  intro n
  induction n with
  | zero => intro s; rfl
  | succ n ih =>
    intro s
    rw [gdTrace, List.getLast?_cons, ih]
    simp [Function.iterate_succ_apply]

/-- The observable behavior of one call to `learn_w_gradient_descent`:
the two printed initial coefficient values, the state after the loop
(`none` models the uncaught numpy exception path), the two printed final
coefficient values (absent when an exception interrupted the call), and
the Python return value. -/
structure TrainRun where
  printedInit : ℚ × ℚ
  result : Option TState
  printedFinal : Option (ℚ × ℚ)
  retVal : Option (ℚ × ℚ)
deriving DecidableEq

/-- Model of `learn_w_gradient_descent(xs, ys)`: the initial coefficient
pair drawn by `np.random.randint(1, 10, size=2)` from the global numpy
random source is passed explicitly; `learning_rate = 0.1` and the
iteration count `5000` are the function's internal constants; the
function prints the initial coefficients, runs the loop, prints the
final coefficients, and returns `None` (modelled: `retVal = none`). -/
def learn_w_gradient_descent (xs ys : List ℚ) (init : ℚ × ℚ) : TrainRun :=
  let final := gdLoop 5000 ⟨xs, ys, init.1, init.2⟩
  { printedInit := init
    result := final
    printedFinal := final.map (fun s => (s.beta0, s.beta1))
    retVal := none }

/-- The values the call writes to standard output, in order: the two
initial coefficients, then (if the loop completed) the two final ones. -/
def printedLines (r : TrainRun) : List ℚ :=
  [r.printedInit.1, r.printedInit.2] ++
    (match r.printedFinal with
     | some p => [p.1, p.2]
     | none => [])

lemma learn_result (xs ys : List ℚ) (b0 b1 : ℚ) :
    (learn_w_gradient_descent xs ys (b0, b1)).result
      = gdLoop 5000 ⟨xs, ys, b0, b1⟩ := rfl

lemma learn_printedFinal (xs ys : List ℚ) (b0 b1 : ℚ) :
    (learn_w_gradient_descent xs ys (b0, b1)).printedFinal
      = (gdLoop 5000 ⟨xs, ys, b0, b1⟩).map (fun s => (s.beta0, s.beta1)) := rfl

lemma learn_printedInit (xs ys : List ℚ) (b0 b1 : ℚ) :
    (learn_w_gradient_descent xs ys (b0, b1)).printedInit = (b0, b1) := rfl

lemma learn_retVal (xs ys : List ℚ) (b0 b1 : ℚ) :
    (learn_w_gradient_descent xs ys (b0, b1)).retVal = none := rfl

/-- numpy broadcast compatibility of `ys` against the predictions built
from `xs` (which have the length of `xs`): the shapes accepted by the
loop body's elementwise arithmetic. -/
def compat (xs ys : List ℚ) : Prop :=
  ys.length = xs.length ∨ ys.length = 1 ∨ xs.length = 1

instance (xs ys : List ℚ) : Decidable (compat xs ys) :=
  decidable_of_iff (ys.length = xs.length ∨ ys.length = 1 ∨ xs.length = 1) Iff.rfl

lemma bop_none (f : ℚ → ℚ → ℚ) (as bs : List ℚ) (h1 : ¬as.length = bs.length)
    (h2 : ¬as.length = 1) (h3 : ¬bs.length = 1) : bop f as bs = none := by
  unfold bop
  rw [if_neg h1, if_neg h2, if_neg h3]

lemma bop_left_one (f : ℚ → ℚ → ℚ) (as bs : List ℚ) (h1 : ¬as.length = bs.length)
    (h2 : as.length = 1) : bop f as bs = some (bs.map (fun b => f as.headI b)) := by
  unfold bop
  rw [if_neg h1, if_pos h2]

lemma bop_right_one (f : ℚ → ℚ → ℚ) (as bs : List ℚ) (h1 : ¬as.length = bs.length)
    (h2 : ¬as.length = 1) (h3 : bs.length = 1) :
    bop f as bs = some (as.map (fun a => f a bs.headI)) := by
  unfold bop
  rw [if_neg h1, if_neg h2, if_pos h3]

/-- The loop body at the source's rate computes the simultaneous update
on equal-length data. -/
lemma gdStep_eq_simul (s : TState) (h : s.xs.length = s.ys.length) :
    gdStep s = some (simulStep s) :=
  gdStepLR_eq_simul learning_rate s h

/-- On broadcast-incompatible data the loop body raises at its first
elementwise subtraction. -/
lemma gdStep_none_of_not_compat (s : TState) (h : ¬compat s.xs s.ys) :
    gdStep s = none := by
  unfold compat at h
  push_neg at h
  obtain ⟨h1, h2, h3⟩ := h
  have hb : bop (fun y yh => y - yh) s.ys (s.xs.map (fun x => s.beta0 + s.beta1 * x))
      = none := by
    apply bop_none
    · rw [List.length_map]; exact h1
    · exact h2
    · rw [List.length_map]; exact h3
  simp only [gdStep, gdStepLR, hb, Option.none_bind]

/-- Whatever state the loop body produces keeps the original observation
arrays. -/
lemma gdStep_frame (s s' : TState) (h : gdStep s = some s') :
    s'.xs = s.xs ∧ s'.ys = s.ys := by
  simp only [gdStep, gdStepLR, Option.bind_eq_some] at h
  obtain ⟨es, _, d1, _, hsome⟩ := h
  obtain rfl : _ = s' := Option.some_injective _ hsome
  exact ⟨rfl, rfl⟩

/-- On broadcast-compatible data the loop body completes. -/
lemma gdStep_isSome_of_compat (s : TState) (h : compat s.xs s.ys) :
    (gdStep s).isSome = true := by
  rcases h with h | h | h
  · rw [gdStep_eq_simul s h.symm]; rfl
  · by_cases heq : s.ys.length = (s.xs.map (fun x => s.beta0 + s.beta1 * x)).length
    · rw [gdStep_eq_simul s (by rw [List.length_map] at heq; exact heq.symm)]; rfl
    · have hlen : (((s.xs.map (fun x => s.beta0 + s.beta1 * x)).map
          (fun b => s.ys.headI - b)).map (fun e => -e)).length = s.xs.length := by
        simp
      simp only [gdStep, gdStepLR, bop_left_one _ _ _ heq h,
        bop_eq_length _ _ _ hlen, Option.some_bind, Option.isSome_some]
  · by_cases heq : s.ys.length = (s.xs.map (fun x => s.beta0 + s.beta1 * x)).length
    · rw [gdStep_eq_simul s (by rw [List.length_map] at heq; exact heq.symm)]; rfl
    · by_cases hone : s.ys.length = 1
      · have hlen : (((s.xs.map (fun x => s.beta0 + s.beta1 * x)).map
            (fun b => s.ys.headI - b)).map (fun e => -e)).length = s.xs.length := by
          simp
        simp only [gdStep, gdStepLR, bop_left_one _ _ _ heq hone,
          bop_eq_length _ _ _ hlen, Option.some_bind, Option.isSome_some]
      · have hmapone : (s.xs.map (fun x => s.beta0 + s.beta1 * x)).length = 1 := by
          rw [List.length_map]; exact h
        by_cases h2 : ((s.ys.map (fun a => a - (s.xs.map
            (fun x => s.beta0 + s.beta1 * x)).headI)).map (fun e => -e)).length
              = s.xs.length
        · simp only [gdStep, gdStepLR, bop_right_one _ _ _ heq hone hmapone,
            bop_eq_length _ _ _ h2, Option.some_bind, Option.isSome_some]
        · simp only [gdStep, gdStepLR, bop_right_one _ _ _ heq hone hmapone,
            bop_right_one _ _ _ h2 (by simpa using hone) h,
            Option.some_bind, Option.isSome_some]

/-- The loop completes exactly on broadcast-compatible data (the
observation arrays never change across iterations). -/
lemma gdLoop_isSome_iff (n : ℕ) (hn : 0 < n) (s : TState) :
    (gdLoop n s).isSome ↔ compat s.xs s.ys := by
  constructor
  · intro his
    by_contra hcon
    cases n with
    | zero => exact absurd hn (by simp)
    | succ n =>
      rw [gdLoop, gdStep_none_of_not_compat s hcon] at his
      simp at his
  · intro hcompat
    clear hn
    induction n generalizing s with
    | zero => simp [gdLoop]
    | succ n ih =>
      obtain ⟨s', hs'⟩ := Option.isSome_iff_exists.mp (gdStep_isSome_of_compat s hcompat)
      obtain ⟨hxs, hys⟩ := gdStep_frame s s' hs'
      rw [gdLoop, hs', Option.some_bind]
      exact ih s' (by rw [hxs, hys]; exact hcompat)

/-- Whatever state the whole loop produces keeps the original
observation arrays. -/
lemma gdLoop_frame :
    ∀ (n : ℕ) (s s' : TState), gdLoop n s = some s' → s'.xs = s.xs ∧ s'.ys = s.ys := by
  intro n
  induction n with
  | zero =>
    intro s s' h
    obtain rfl : s = s' := Option.some_injective _ h
    exact ⟨rfl, rfl⟩
  | succ n ih =>
    intro s s' h
    rw [gdLoop] at h
    cases hstep : gdStep s with
    | none => rw [hstep, Option.none_bind] at h; exact absurd h (by simp)
    | some s1 =>
      rw [hstep, Option.some_bind] at h
      obtain ⟨h1, h2⟩ := gdStep_frame s s1 hstep
      obtain ⟨h3, h4⟩ := ih s1 s' h
      exact ⟨h3.trans h1, h4.trans h2⟩

/-- With empty observation arrays the loop body completes and leaves the
coefficients untouched.  (numpy's mean of an empty array is NaN, which
then propagates into the printed coefficients; in `ℚ` the empty mean is
0, so the coefficients are unchanged.  In both semantics the relevant
observable is the same: no error is raised and the call completes.) -/
lemma gdStep_nil (b0 b1 : ℚ) : gdStep ⟨[], [], b0, b1⟩ = some ⟨[], [], b0, b1⟩ := by
  rw [gdStep_eq_simul ⟨[], [], b0, b1⟩ rfl]
  unfold simulStep simulStepLR grad0 grad1 residuals mean
  simp

/-- With empty observation arrays every iteration count completes. -/
lemma gdLoop_nil (n : ℕ) (b0 b1 : ℚ) :
    gdLoop n ⟨[], [], b0, b1⟩ = some ⟨[], [], b0, b1⟩ := by
  induction n with
  | zero => rfl
  | succ n ih => rw [gdLoop, gdStep_nil, Option.some_bind, ih]

/-- A concrete one-step evaluation on perfectly fitting data. -/
lemma gdStep_perfect_concrete :
    gdStep ⟨[1, 2], [8, 10], 6, 2⟩ = some ⟨[1, 2], [8, 10], 6, 2⟩ := by
  rw [gdStep_eq_simul ⟨[1, 2], [8, 10], 6, 2⟩ rfl]
  unfold simulStep simulStepLR grad0 grad1 residuals mean
  norm_num [List.zipWith, TState.mk.injEq]

/-- Modelled from the spec: `gen_simple_linear`, imported from
`datasets.general`, whose source file is missing from this repository
snapshot.  Per the spec it draws one feature value per observation from a
fixed pseudo-random distribution and computes each target as the exact
value `beta_0 + beta_1 * x` (no noise), preserving observation order.
The pseudo-random source is modelled as an explicitly passed stream
`rand : ℕ → ℚ` of draws, following the spec's direction that module-level
random state be an explicitly passed source/seed. -/
def gen_simple_linear (b0 b1 : ℚ) (nObs : ℕ) (rand : ℕ → ℚ) : List ℚ × List ℚ :=
  let xs := (List.range nObs).map rand
  (xs, xs.map (fun x => b0 + b1 * x))

/-- A full caller run: generate data from the true coefficients and the
random source, then train starting from the given initial coefficient
draw. -/
def runExperiment (b0 b1 : ℚ) (nObs : ℕ) (rand : ℕ → ℚ) (init : ℚ × ℚ) : TrainRun :=
  let p := gen_simple_linear b0 b1 nObs rand
  learn_w_gradient_descent p.1 p.2 init

/-- C1: in every training iteration, given current coefficients
`(beta_0, beta_1)` and observations `xs, ys`, the computed gradient for
the intercept is the negative mean of the residuals
`ys - (beta_0 + beta_1 * xs)`, the gradient for the feature coefficient
is the negative mean of residual times feature value, and each
coefficient is updated by `coefficient -= learning_rate * gradient`. -/
theorem step_gradients_are_negative_mean_residuals (s : TState)
    (h : s.xs.length = s.ys.length) :
    gdStep s = some ⟨s.xs, s.ys,
      s.beta0 - learning_rate * (-(mean (residuals s))),
      s.beta1 - learning_rate *
        (-(mean (List.zipWith (fun e x => e * x) (residuals s) s.xs)))⟩ := by
  rw [gdStep_eq_simul s h]
  rfl

/-- Witness for C1 at a concrete state. -/
theorem step_gradients_are_negative_mean_residuals_witness :
    ([(2 : ℚ)].length = [(5 : ℚ)].length) ∧
      gdStep ⟨[2], [5], 1, 1⟩ = some ⟨[2], [5],
        1 - learning_rate * (-(mean (residuals ⟨[2], [5], 1, 1⟩))),
        1 - learning_rate *
          (-(mean (List.zipWith (fun e x => e * x) (residuals ⟨[2], [5], 1, 1⟩) [2])))⟩ :=
  ⟨rfl, step_gradients_are_negative_mean_residuals ⟨[2], [5], 1, 1⟩ rfl⟩

/-- C2: within a single iteration both coefficients are updated from
gradients evaluated at the same pre-update coefficient vector: the
sequential assignments of the source compute exactly the simultaneous
update `simulStep`, whose two gradients `grad0 s`, `grad1 s` are both
functions of the state `s` before either update. -/
theorem updates_use_pre_update_coefficients (s s' : TState)
    (h : s.xs.length = s.ys.length) (hstep : gdStep s = some s') :
    s'.beta0 = s.beta0 - learning_rate * grad0 s ∧
    s'.beta1 = s.beta1 - learning_rate * grad1 s ∧
    s' = simulStep s := by
  have heq := gdStep_eq_simul s h
  rw [hstep] at heq
  obtain rfl : s' = simulStep s := Option.some_injective _ heq
  exact ⟨rfl, rfl, rfl⟩

/-- Witness for C2 at a concrete state (perfect data, so the step is
checkable by evaluation). -/
theorem updates_use_pre_update_coefficients_witness :
    ([(1 : ℚ), 2].length = [(8 : ℚ), 10].length) ∧
      gdStep ⟨[1, 2], [8, 10], 6, 2⟩ = some ⟨[1, 2], [8, 10], 6, 2⟩ ∧
      ((⟨[1, 2], [8, 10], 6, 2⟩ : TState).beta0
          = (⟨[1, 2], [8, 10], 6, 2⟩ : TState).beta0
              - learning_rate * grad0 ⟨[1, 2], [8, 10], 6, 2⟩ ∧
        (⟨[1, 2], [8, 10], 6, 2⟩ : TState).beta1
          = (⟨[1, 2], [8, 10], 6, 2⟩ : TState).beta1
              - learning_rate * grad1 ⟨[1, 2], [8, 10], 6, 2⟩ ∧
        (⟨[1, 2], [8, 10], 6, 2⟩ : TState) = simulStep ⟨[1, 2], [8, 10], 6, 2⟩) :=
  ⟨rfl, gdStep_perfect_concrete,
    updates_use_pre_update_coefficients ⟨[1, 2], [8, 10], 6, 2⟩
      ⟨[1, 2], [8, 10], 6, 2⟩ rfl gdStep_perfect_concrete⟩

/-- C3 counterexample: the source trainer returns `None` to its caller
(Python function with no return statement) even on a well-formed input;
the final coefficient vector is printed, not returned, and the learning
rate and iteration count are internal constants rather than call
parameters.  Concretely: the run on `xs = [1]`, `ys = [8]` with initial
draw `(3, 7)` has return value `none` although it computes and prints a
final coefficient pair. -/
theorem train_returns_none_counterexample :
    (learn_w_gradient_descent [1] [8] (3, 7)).retVal = none ∧
      (learn_w_gradient_descent [1] [8] (3, 7)).printedFinal ≠ none := by
  refine ⟨learn_retVal [1] [8] 3 7, ?_⟩
  rw [learn_printedFinal, gdLoop_eq_iterate 5000 ⟨[1], [8], 3, 7⟩ rfl,
    Option.map_some']
  exact Option.some_ne_none _

/-- C3 amended: `learn_w_gradient_descent` takes only the observation
arrays (plus the ambient random initialization); the learning rate 0.1
and the iteration count 5000 are internal constants; it prints the final
coefficient pair (the simultaneous update iterated 5000 times from the
initial draw) and returns `None`. -/
theorem train_prints_final_coefficients_and_returns_none
    (xs ys : List ℚ) (b0 b1 : ℚ) (h : xs.length = ys.length) :
    (learn_w_gradient_descent xs ys (b0, b1)).retVal = none ∧
      (learn_w_gradient_descent xs ys (b0, b1)).printedFinal
        = some ((simulStep^[5000] ⟨xs, ys, b0, b1⟩).beta0,
                (simulStep^[5000] ⟨xs, ys, b0, b1⟩).beta1) := by
  refine ⟨learn_retVal xs ys b0 b1, ?_⟩
  rw [learn_printedFinal, gdLoop_eq_iterate 5000 ⟨xs, ys, b0, b1⟩ h]
  rfl

/-- Witness for the amended C3 at a concrete input. -/
theorem train_prints_final_coefficients_and_returns_none_witness :
    ([(1 : ℚ)].length = [(8 : ℚ)].length) ∧
      ((learn_w_gradient_descent [1] [8] (3, 7)).retVal = none ∧
        (learn_w_gradient_descent [1] [8] (3, 7)).printedFinal
          = some ((simulStep^[5000] ⟨[1], [8], 3, 7⟩).beta0,
                  (simulStep^[5000] ⟨[1], [8], 3, 7⟩).beta1)) :=
  ⟨rfl, train_prints_final_coefficients_and_returns_none [1] [8] 3 7 rfl⟩

/-- C4: the trainer's loop executes exactly its fixed iteration count
(5000) of update steps and then terminates: the visited-state trace has
exactly 5001 entries and the state the trainer ends in is the last entry
of that trace — there is no convergence-based early stopping, divergence
detection, or any other early exit. -/
theorem loop_runs_exactly_fixed_iterations (s : TState)
    (h : s.xs.length = s.ys.length) :
    (gdTrace 5000 s).length = 5000 + 1 ∧
      (learn_w_gradient_descent s.xs s.ys (s.beta0, s.beta1)).result
        = (gdTrace 5000 s).getLast? := by
  refine ⟨gdTrace_length 5000 s, ?_⟩
  rw [gdTrace_getLast?, learn_result]
  exact gdLoop_eq_iterate 5000 s h

/-- Witness for C4 at a concrete input. -/
theorem loop_runs_exactly_fixed_iterations_witness :
    ([(1 : ℚ)].length = [(8 : ℚ)].length) ∧
      ((gdTrace 5000 ⟨[1], [8], 3, 7⟩).length = 5000 + 1 ∧
        (learn_w_gradient_descent [1] [8] (3, 7)).result
          = (gdTrace 5000 ⟨[1], [8], 3, 7⟩).getLast?) :=
  ⟨rfl, loop_runs_exactly_fixed_iterations ⟨[1], [8], 3, 7⟩ rfl⟩

/-- C5 counterexample: zero observations do NOT fail: the call with
`xs = [] , ys = []` completes — no `InvalidArgument` (or any other)
error is raised, no validation runs before the loop, and the final
prints still happen (numpy prints NaN coefficients; in the rational
model the coefficients are unchanged). -/
theorem zero_observations_do_not_fail :
    (learn_w_gradient_descent [] [] (3, 7)).result = some ⟨[], [], 3, 7⟩ ∧
      printedLines (learn_w_gradient_descent [] [] (3, 7)) = [3, 7, 3, 7] := by
  have h2 : (learn_w_gradient_descent [] [] (3, 7)).printedFinal
      = some ((3 : ℚ), (7 : ℚ)) := by
    rw [learn_printedFinal, gdLoop_nil 5000 3 7]
    rfl
  constructor
  · rw [learn_result]; exact gdLoop_nil 5000 3 7
  · simp only [printedLines, h2, learn_printedInit]
    rfl

/-- C5 amended: the trainer performs no input validation and has no
`InvalidArgument` error: the only failure is the numpy broadcast error
raised inside the first loop iteration when the observation arrays are
shape-incompatible; zero observations, non-positive learning rate or
iteration count (both internal constants) raise nothing. -/
theorem trainer_fails_iff_broadcast_incompatible (xs ys : List ℚ) (b0 b1 : ℚ) :
    (learn_w_gradient_descent xs ys (b0, b1)).result = none ↔ ¬compat xs ys := by
  rw [learn_result, ← Option.not_isSome_iff_eq_none]
  exact not_congr (gdLoop_isSome_iff 5000 (by norm_num) ⟨xs, ys, b0, b1⟩)

/-- C6 (generator modelled from the spec, its source being absent from
the snapshot): training and generation are deterministic given fixed
randomness — two generator calls with the same true coefficients,
observation count and random source yield identical observation sets,
and two full runs with identical parameters, random source and initial
draw produce identical observable behavior and identical coefficient
trajectories. -/
theorem deterministic_given_fixed_randomness (b0 b1 : ℚ) (nObs : ℕ)
    (r r' : ℕ → ℚ) (i i' : ℚ × ℚ) (hr : r = r') (hi : i = i') :
    gen_simple_linear b0 b1 nObs r = gen_simple_linear b0 b1 nObs r' ∧
    runExperiment b0 b1 nObs r i = runExperiment b0 b1 nObs r' i' ∧
    gdTrace 5000 ⟨(gen_simple_linear b0 b1 nObs r).1,
        (gen_simple_linear b0 b1 nObs r).2, i.1, i.2⟩
      = gdTrace 5000 ⟨(gen_simple_linear b0 b1 nObs r').1,
          (gen_simple_linear b0 b1 nObs r').2, i'.1, i'.2⟩ := by
  subst hr
  subst hi
  exact ⟨rfl, rfl, rfl⟩

/-- Witness for C6 at a concrete seed stream and parameters. -/
theorem deterministic_given_fixed_randomness_witness :
    ((fun n : ℕ => (n : ℚ)) = (fun n : ℕ => (n : ℚ))) ∧
      (gen_simple_linear 6 2 5 (fun n : ℕ => (n : ℚ))
          = gen_simple_linear 6 2 5 (fun n : ℕ => (n : ℚ)) ∧
        runExperiment 6 2 5 (fun n : ℕ => (n : ℚ)) (3, 7)
          = runExperiment 6 2 5 (fun n : ℕ => (n : ℚ)) (3, 7) ∧
        gdTrace 5000 ⟨(gen_simple_linear 6 2 5 (fun n : ℕ => (n : ℚ))).1,
            (gen_simple_linear 6 2 5 (fun n : ℕ => (n : ℚ))).2, 3, 7⟩
          = gdTrace 5000 ⟨(gen_simple_linear 6 2 5 (fun n : ℕ => (n : ℚ))).1,
              (gen_simple_linear 6 2 5 (fun n : ℕ => (n : ℚ))).2, 3, 7⟩) :=
  ⟨rfl, deterministic_given_fixed_randomness 6 2 5 _ _ (3, 7) (3, 7) rfl rfl⟩

/-- C7 counterexample: a call to the trainer does perform I/O: on the
concrete input `xs = []`, `ys = []`, initial draw `(3, 7)` it writes
four values (the initial and final coefficients) to standard output, so
its side effects are not limited to its own coefficient state. -/
theorem trainer_writes_to_stdout :
    printedLines (learn_w_gradient_descent [] [] (3, 7)) ≠ [] := by
  have h2 : (learn_w_gradient_descent [] [] (3, 7)).printedFinal
      = some ((3 : ℚ), (7 : ℚ)) := by
    rw [learn_printedFinal, gdLoop_nil 5000 3 7]
    rfl
  simp only [printedLines, h2, learn_printedInit]
  simp

/-- C7 amended: the call's side effects beyond its own coefficient state
are exactly its console output (and the global-RNG draw modelled as the
explicit `init` argument): the values written to stdout are precisely
the two initial coefficients followed by the two final ones, and nothing
else is written or read. -/
theorem side_effects_are_exactly_coefficient_prints
    (xs ys : List ℚ) (b0 b1 : ℚ) (h : xs.length = ys.length) :
    printedLines (learn_w_gradient_descent xs ys (b0, b1))
      = [b0, b1,
         (simulStep^[5000] ⟨xs, ys, b0, b1⟩).beta0,
         (simulStep^[5000] ⟨xs, ys, b0, b1⟩).beta1] := by
  have h2 : (learn_w_gradient_descent xs ys (b0, b1)).printedFinal
      = some ((simulStep^[5000] ⟨xs, ys, b0, b1⟩).beta0,
              (simulStep^[5000] ⟨xs, ys, b0, b1⟩).beta1) := by
    rw [learn_printedFinal, gdLoop_eq_iterate 5000 ⟨xs, ys, b0, b1⟩ h]
    rfl
  simp only [printedLines, h2, learn_printedInit]
  rfl

/-- Witness for the amended C7 at a concrete input. -/
theorem side_effects_are_exactly_coefficient_prints_witness :
    (([] : List ℚ).length = ([] : List ℚ).length) ∧
      printedLines (learn_w_gradient_descent [] [] (3, 7))
        = [3, 7,
           (simulStep^[5000] ⟨[], [], 3, 7⟩).beta0,
           (simulStep^[5000] ⟨[], [], 3, 7⟩).beta1] :=
  ⟨rfl, side_effects_are_exactly_coefficient_prints [] [] 3 7 rfl⟩

/-- C8: the observation arrays passed to the trainer are never mutated:
whatever state the training run ends in carries exactly the `xs` and
`ys` it was called with. -/
theorem observations_never_mutated (xs ys : List ℚ) (b0 b1 : ℚ) (s' : TState)
    (h : (learn_w_gradient_descent xs ys (b0, b1)).result = some s') :
    s'.xs = xs ∧ s'.ys = ys := by
  rw [learn_result] at h
  exact gdLoop_frame 5000 ⟨xs, ys, b0, b1⟩ s' h

/-- Witness for C8 at a concrete input. -/
theorem observations_never_mutated_witness :
    ((learn_w_gradient_descent [] [] (3, 7)).result = some ⟨[], [], 3, 7⟩) ∧
      ((⟨[], [], 3, 7⟩ : TState).xs = [] ∧ (⟨[], [], 3, 7⟩ : TState).ys = []) := by
  have h : (learn_w_gradient_descent [] [] (3, 7)).result = some ⟨[], [], 3, 7⟩ := by
    rw [learn_result]
    exact gdLoop_nil 5000 3 7
  exact ⟨h, observations_never_mutated [] [] 3 7 ⟨[], [], 3, 7⟩ h⟩

section Fixpoint

lemma zipWith_self_sub (f : ℚ → ℚ) :
    ∀ xs : List ℚ,
      List.zipWith (fun y x => y - f x) (xs.map f) xs = xs.map (fun _ => 0) := by
  intro xs
  induction xs with
  | nil => rfl
  | cons a xs ih => simp [ih]

lemma zipWith_mul_zeros :
    ∀ xs : List ℚ,
      List.zipWith (fun e x => e * x) (xs.map (fun _ => (0 : ℚ))) xs
        = xs.map (fun _ => 0) := by
  intro xs
  induction xs with
  | nil => rfl
  | cons a xs ih =>
    simp only [List.map_cons, List.zipWith_cons_cons, zero_mul, ih]

lemma mean_zeros (xs : List ℚ) : mean (xs.map (fun _ => (0 : ℚ))) = 0 := by
  unfold mean
  simp

end Fixpoint

/-- C9: the true coefficients are a fixpoint of the update step: on any
observation set whose outputs exactly equal `beta_0 + beta_1 * x`, one
iteration started at `(beta_0, beta_1)` computes zero gradients and
leaves both coefficients unchanged, for any learning rate. -/
theorem perfect_data_is_fixpoint (lr : ℚ) (s : TState)
    (h : s.ys = s.xs.map (fun x => s.beta0 + s.beta1 * x)) :
    grad0 s = 0 ∧ grad1 s = 0 ∧ gdStepLR lr s = some s := by
  have hres : residuals s = s.xs.map (fun _ => (0 : ℚ)) := by
    rw [residuals, h]
    exact zipWith_self_sub _ s.xs
  have hg0 : grad0 s = 0 := by
    rw [grad0, hres, mean_zeros, neg_zero]
  have hg1 : grad1 s = 0 := by
    rw [grad1, hres, zipWith_mul_zeros, mean_zeros, neg_zero]
  have hlen : s.xs.length = s.ys.length := by
    rw [h, List.length_map]
  refine ⟨hg0, hg1, ?_⟩
  rw [gdStepLR_eq_simul lr s hlen]
  simp [simulStepLR, hg0, hg1]

/-- Witness for C9 at a concrete observation set and learning rate. -/
theorem perfect_data_is_fixpoint_witness :
    (([(3 : ℚ), 7] : List ℚ)
        = ([(1 : ℚ), 3] : List ℚ).map (fun x => 1 + 2 * x)) ∧
      (grad0 ⟨[1, 3], [3, 7], 1, 2⟩ = 0 ∧ grad1 ⟨[1, 3], [3, 7], 1, 2⟩ = 0 ∧
        gdStepLR 5 ⟨[1, 3], [3, 7], 1, 2⟩ = some ⟨[1, 3], [3, 7], 1, 2⟩) :=
  ⟨by norm_num [List.map], perfect_data_is_fixpoint 5 ⟨[1, 3], [3, 7], 1, 2⟩
    (by norm_num [List.map])⟩

/-- Squared distance of a state's coefficients from the true pair
`(6, 2)` of the spec's simple-regression scenario. -/
def V (s : TState) : ℚ := (s.beta0 - 6) ^ 2 + (s.beta1 - 2) ^ 2

/-- The scenario observation inputs: one representative draw of five
feature values from the generator's bounded uniform distribution on
`[0, 1)`. -/
def scenXs : List ℚ := [1 / 10, 3 / 10, 1 / 2, 7 / 10, 9 / 10]

/-- The scenario targets: noiseless outputs `6 + 2 * x` for `scenXs`. -/
def scenYs : List ℚ := [31 / 5, 33 / 5, 7, 37 / 5, 39 / 5]

lemma scenYs_noiseless : scenYs = scenXs.map (fun x => 6 + 2 * x) := by
  norm_num [scenXs, scenYs, List.map]

/-- The update step on the scenario data acts on the coefficients as an
explicit affine map. -/
lemma scen_step (b0 b1 : ℚ) :
    simulStep ⟨scenXs, scenYs, b0, b1⟩ =
      ⟨scenXs, scenYs, 9 / 10 * b0 - 1 / 20 * b1 + 7 / 10,
        -(1 / 20) * b0 + 967 / 1000 * b1 + 183 / 500⟩ := by
  unfold simulStep simulStepLR grad0 grad1 residuals mean scenXs scenYs learning_rate
  norm_num [List.zipWith, TState.mk.injEq]
  constructor <;> ring

/-- One scenario step contracts the squared distance to the true
coefficients by the factor `(199/200)^2 = 39601/40000`. -/
lemma scen_contract (b0 b1 : ℚ) :
    V (simulStep ⟨scenXs, scenYs, b0, b1⟩)
      ≤ 39601 / 40000 * V ⟨scenXs, scenYs, b0, b1⟩ := by
  rw [scen_step]
  show (9 / 10 * b0 - 1 / 20 * b1 + 7 / 10 - 6) ^ 2
      + (-(1 / 20) * b0 + 967 / 1000 * b1 + 183 / 500 - 2) ^ 2
    ≤ 39601 / 40000 * ((b0 - 6) ^ 2 + (b1 - 2) ^ 2)
  nlinarith [sq_nonneg (2 * (7101 / 40000) * (b0 - 6) + 1867 / 10000 * (b1 - 2)),
    sq_nonneg (b1 - 2), sq_nonneg (b0 - 6)]

lemma scen_iter (k : ℕ) (b0 b1 : ℚ) :
    V (simulStep^[k] ⟨scenXs, scenYs, b0, b1⟩)
      ≤ ((39601 : ℚ) / 40000) ^ k * V ⟨scenXs, scenYs, b0, b1⟩ := by
  induction k generalizing b0 b1 with
  | zero => simp
  | succ k ih =>
    rw [Function.iterate_succ_apply, scen_step]
    calc V (simulStep^[k] ⟨scenXs, scenYs, 9 / 10 * b0 - 1 / 20 * b1 + 7 / 10,
            -(1 / 20) * b0 + 967 / 1000 * b1 + 183 / 500⟩)
        ≤ ((39601 : ℚ) / 40000) ^ k * V ⟨scenXs, scenYs,
            9 / 10 * b0 - 1 / 20 * b1 + 7 / 10,
            -(1 / 20) * b0 + 967 / 1000 * b1 + 183 / 500⟩ := ih _ _
      _ = ((39601 : ℚ) / 40000) ^ k * V (simulStep ⟨scenXs, scenYs, b0, b1⟩) := by
            rw [scen_step]
      _ ≤ ((39601 : ℚ) / 40000) ^ k
            * (39601 / 40000 * V ⟨scenXs, scenYs, b0, b1⟩) := by
            exact mul_le_mul_of_nonneg_left (scen_contract b0 b1) (by positivity)
      _ = ((39601 : ℚ) / 40000) ^ (k + 1) * V ⟨scenXs, scenYs, b0, b1⟩ := by
            ring

lemma q_pow_5000_small : ((39601 : ℚ) / 40000) ^ 5000 ≤ 1 / 740000 := by
  have h50 : ((39601 : ℚ) / 40000) ^ 50 ≤ 4 / 5 := by norm_num
  have h1 : ((39601 : ℚ) / 40000) ^ 5000 = (((39601 : ℚ) / 40000) ^ 50) ^ 100 := by
    rw [← pow_mul]
  have h2 : (((39601 : ℚ) / 40000) ^ 50) ^ 100 ≤ ((4 : ℚ) / 5) ^ 100 :=
    pow_le_pow_left₀ (by positivity) h50 100
  have h3 : ((4 : ℚ) / 5) ^ 100 ≤ 1 / 740000 := by norm_num
  calc ((39601 : ℚ) / 40000) ^ 5000
      = (((39601 : ℚ) / 40000) ^ 50) ^ 100 := h1
    _ ≤ ((4 : ℚ) / 5) ^ 100 := h2
    _ ≤ 1 / 740000 := h3

/-- C10 amended: on well-posed scenario data (the five distinct feature
values of `scenXs`, noiseless targets from the true coefficients
`(6, 2)`), training at the code's learning rate 0.1 for its 5000
iterations ends within 1/100 of the true coefficients, for every initial
coefficient pair the code's `np.random.randint(1, 10, size=2)` can
draw. -/
theorem scenario_training_recovers_true_coefficients (b0 b1 : ℚ)
    (h1 : 1 ≤ b0) (h2 : b0 ≤ 9) (h3 : 1 ≤ b1) (h4 : b1 ≤ 9) :
    (learn_w_gradient_descent scenXs scenYs (b0, b1)).result
        = some (simulStep^[5000] ⟨scenXs, scenYs, b0, b1⟩) ∧
      |(simulStep^[5000] ⟨scenXs, scenYs, b0, b1⟩).beta0 - 6| ≤ 1 / 100 ∧
      |(simulStep^[5000] ⟨scenXs, scenYs, b0, b1⟩).beta1 - 2| ≤ 1 / 100 := by
  have hres : (learn_w_gradient_descent scenXs scenYs (b0, b1)).result
      = some (simulStep^[5000] ⟨scenXs, scenYs, b0, b1⟩) := by
    rw [learn_result]
    exact gdLoop_eq_iterate 5000 ⟨scenXs, scenYs, b0, b1⟩ rfl
  have hV0 : V ⟨scenXs, scenYs, b0, b1⟩ ≤ 74 := by
    show (b0 - 6) ^ 2 + (b1 - 2) ^ 2 ≤ 74
    nlinarith
  have hVpos : (0 : ℚ) ≤ V ⟨scenXs, scenYs, b0, b1⟩ := by
    show (0 : ℚ) ≤ (b0 - 6) ^ 2 + (b1 - 2) ^ 2
    positivity
  have hVk : V (simulStep^[5000] ⟨scenXs, scenYs, b0, b1⟩) ≤ 1 / 10000 := by
    calc V (simulStep^[5000] ⟨scenXs, scenYs, b0, b1⟩)
        ≤ ((39601 : ℚ) / 40000) ^ 5000 * V ⟨scenXs, scenYs, b0, b1⟩ :=
          scen_iter 5000 b0 b1
      _ ≤ (1 / 740000 : ℚ) * 74 :=
          mul_le_mul q_pow_5000_small hV0 hVpos (by norm_num)
      _ = 1 / 10000 := by norm_num
  have hVk' : ((simulStep^[5000] ⟨scenXs, scenYs, b0, b1⟩).beta0 - 6) ^ 2
      + ((simulStep^[5000] ⟨scenXs, scenYs, b0, b1⟩).beta1 - 2) ^ 2 ≤ 1 / 10000 := hVk
  refine ⟨hres, ?_, ?_⟩
  · rw [abs_le]
    constructor
    · nlinarith [sq_nonneg ((simulStep^[5000] ⟨scenXs, scenYs, b0, b1⟩).beta0 - 6 + 1 / 100),
        sq_nonneg ((simulStep^[5000] ⟨scenXs, scenYs, b0, b1⟩).beta1 - 2)]
    · nlinarith [sq_nonneg ((simulStep^[5000] ⟨scenXs, scenYs, b0, b1⟩).beta0 - 6 - 1 / 100),
        sq_nonneg ((simulStep^[5000] ⟨scenXs, scenYs, b0, b1⟩).beta1 - 2)]
  · rw [abs_le]
    constructor
    · nlinarith [sq_nonneg ((simulStep^[5000] ⟨scenXs, scenYs, b0, b1⟩).beta1 - 2 + 1 / 100),
        sq_nonneg ((simulStep^[5000] ⟨scenXs, scenYs, b0, b1⟩).beta0 - 6)]
    · nlinarith [sq_nonneg ((simulStep^[5000] ⟨scenXs, scenYs, b0, b1⟩).beta1 - 2 - 1 / 100),
        sq_nonneg ((simulStep^[5000] ⟨scenXs, scenYs, b0, b1⟩).beta0 - 6)]

/-- Witness for the amended C10 at the initial draw `(1, 9)`. -/
theorem scenario_training_recovers_true_coefficients_witness :
    ((1 : ℚ) ≤ 1 ∧ (1 : ℚ) ≤ 9 ∧ (1 : ℚ) ≤ 9 ∧ (9 : ℚ) ≤ 9) ∧
      ((learn_w_gradient_descent scenXs scenYs (1, 9)).result
          = some (simulStep^[5000] ⟨scenXs, scenYs, 1, 9⟩) ∧
        |(simulStep^[5000] ⟨scenXs, scenYs, 1, 9⟩).beta0 - 6| ≤ 1 / 100 ∧
        |(simulStep^[5000] ⟨scenXs, scenYs, 1, 9⟩).beta1 - 2| ≤ 1 / 100) :=
  ⟨by norm_num,
    scenario_training_recovers_true_coefficients 1 9 (by norm_num) (by norm_num)
      (by norm_num) (by norm_num)⟩

/-- The update step on the rank-deficient observation set
`xs = [1/2, 1/2]`, `ys = [7, 7]` (noiseless for true coefficients
`(6, 2)`, two observations for two coefficients). -/
lemma degen_step (b0 b1 : ℚ) :
    simulStep ⟨[1 / 2, 1 / 2], [7, 7], b0, b1⟩ =
      ⟨[1 / 2, 1 / 2], [7, 7], b0 - 1 / 10 * (b0 + b1 / 2 - 7),
        b1 - 1 / 20 * (b0 + b1 / 2 - 7)⟩ := by
  unfold simulStep simulStepLR grad0 grad1 residuals mean learning_rate
  norm_num [List.zipWith, TState.mk.injEq]
  constructor <;> ring

/-- On the rank-deficient data the quantity `beta_0 - 2 * beta_1` is
invariant under the update step, for every iteration count. -/
lemma degen_invariant (k : ℕ) (b0 b1 : ℚ) :
    (simulStep^[k] ⟨[1 / 2, 1 / 2], [7, 7], b0, b1⟩).beta0
        - 2 * (simulStep^[k] ⟨[1 / 2, 1 / 2], [7, 7], b0, b1⟩).beta1
      = b0 - 2 * b1 := by
  induction k generalizing b0 b1 with
  | zero => simp only [Function.iterate_zero_apply]
  | succ k ih =>
    rw [Function.iterate_succ_apply, degen_step, ih]
    ring

/-- C10 counterexample: the claim's preconditions admit data on which
training cannot recover the true coefficients: for true coefficients
`(6, 2)` (all nonzero, bounded), two observations — the coefficient
count — with duplicated feature value 1/2 and exactly noiseless targets
`7 = 6 + 2 * (1/2)`, the run from the admissible initial draw `(1, 9)`
completes its 5000 iterations at learning rate 0.1, yet the final
coefficients are NOT within 1/100 (nor any tolerance below 19/3) of
`(6, 2)`: the quantity `beta_0 - 2 * beta_1` is conserved at `-17`,
while recovery would force it near `2`. -/
theorem degenerate_data_defeats_recovery :
    (learn_w_gradient_descent [1 / 2, 1 / 2] [7, 7] (1, 9)).result
        = some (simulStep^[5000] ⟨[1 / 2, 1 / 2], [7, 7], 1, 9⟩) ∧
      ¬(|(simulStep^[5000] ⟨[1 / 2, 1 / 2], [7, 7], 1, 9⟩).beta0 - 6| ≤ 1 / 100 ∧
        |(simulStep^[5000] ⟨[1 / 2, 1 / 2], [7, 7], 1, 9⟩).beta1 - 2| ≤ 1 / 100) := by
  constructor
  · rw [learn_result]
    exact gdLoop_eq_iterate 5000 ⟨[1 / 2, 1 / 2], [7, 7], 1, 9⟩ rfl
  · rintro ⟨ha, hb⟩
    have hinv := degen_invariant 5000 1 9
    rw [abs_le] at ha hb
    linarith [ha.1, ha.2, hb.1, hb.2, hinv]

end NNGD
